import Mathlib

/-!
Verification of the wazuh-agent event-queue and communicator core against its
natural-language specification.  The definitions below are shallow embeddings
of the C++ sources under `poc/curl/` and `src/agent/`; theorems check the
spec's claims against them.
-/

namespace Wazuh

/-!
Persistent event store (poc/curl).  The record mirrors `struct Event` from
`poc/curl/db_wrapper.hpp`; the store itself is the ordered list of rows of the
`events` table, oldest first.
-/

structure Event where
  id : Int
  event_data : String
  event_type : String
  status : String
deriving DecidableEq, Repr

/-- Modelled from the spec: the QueueDB operations used by
`EventQueueMonitor` (`createTable`, `updateEntriesStatus`,
`getPendingEventCount`, `fetchAndMarkPendingEvents`, `updateEventStatus`,
`deleteEntriesWithStatus`) have no implementation under src/ (the wrappers in
`poc/curl/db/` expose an older interface), so they are modelled from spec
section 4.A.  `create()` idempotently ensures the underlying schema exists; it
does not change the stored events. -/
def createTable (db : List Event) : List Event := db

/-- Modelled from the spec: `updateEntriesStatus(from, to)` transitions every
event whose status is `from` to status `to`. -/
def updateEntriesStatus (db : List Event) (fromStatus toStatus : String) : List Event :=
  db.map (fun e => if e.status = fromStatus then { e with status := toStatus } else e)

/-- Modelled from the spec: `pendingCount()` is the exact count of events
with status `pending`. -/
def getPendingEventCount (db : List Event) : Nat :=
  (db.filter (fun e => e.status = "pending")).length

/-- Modelled from the spec: `fetchAndMarkPending(limit N)` atomically selects
up to N oldest `pending` events, transitions them to `processing`, and
returns the selected events (first component) next to the updated store
(second component). -/
def fetchAndMarkPendingEvents (db : List Event) (limit : Nat) : List Event × List Event :=
  let fetched : List Event := (db.filter (fun e => e.status = "pending")).take limit
  let fetchedIds : List Int := fetched.map (fun e => e.id)
  (fetched, db.map (fun e => if e.id ∈ fetchedIds then { e with status := "processing" } else e))

/-- Modelled from the spec: `updateStatus(ids, newStatus)` transitions the
listed events to `newStatus`; unknown ids are ignored. -/
def updateEventStatus (db : List Event) (ids : List Int) (newStatus : String) : List Event :=
  db.map (fun e => if e.id ∈ ids then { e with status := newStatus } else e)

/-- Modelled from the spec: `deleteByStatus(status)` removes all events with
the given status. -/
def deleteEntriesWithStatus (db : List Event) (status : String) : List Event :=
  db.filter (fun e => ¬ e.status = status)

/-- Startup sequence of `EventQueueMonitor::EventQueueMonitor`
(`poc/curl/event_queue_monitor.hpp` lines 17-19): `createTable()` followed by
`updateEntriesStatus("processing", "pending")`, before the dispatcher thread
starts. -/
def monitorStartup (db : List Event) : List Event :=
  updateEntriesStatus (createTable db) "processing" "pending"

/-- C1.  Crash recovery: for every prior state of the persistent event store,
after the startup step no event has status `processing`, and every event whose
status was `processing` now sits in the store with status `pending`. -/
theorem c1_startup_crash_recovery (db : List Event) :
    (∀ e ∈ monitorStartup db, e.status ≠ "processing") ∧
    (∀ e ∈ db, e.status = "processing" → { e with status := "pending" } ∈ monitorStartup db) := by
  constructor
  · intro e he
    simp only [monitorStartup, createTable, updateEntriesStatus, List.mem_map] at he
    obtain ⟨a, _, rfl⟩ := he
    by_cases h : a.status = "processing"
    · simp [h]
    · simp [h]
  · intro e he h
    simp only [monitorStartup, createTable, updateEntriesStatus, List.mem_map]
    exact ⟨e, he, by simp [h]⟩

/-- Witness for C1 at a concrete store: the event that was `processing`
is `pending` after startup. -/
theorem c1_startup_crash_recovery_witness :
    ({ id := 1, event_data := "a", event_type := "json", status := "pending" } : Event) ∈
      monitorStartup [{ id := 1, event_data := "a", event_type := "json", status := "processing" }] :=
  (c1_startup_crash_recovery
      [{ id := 1, event_data := "a", event_type := "json", status := "processing" }]).2
    { id := 1, event_data := "a", event_type := "json", status := "processing" }
    (by simp) rfl

/-!
The dispatcher of `EventQueueMonitor` (`poc/curl/event_queue_monitor.hpp`
lines 42-106).  Time is modelled as the steady-clock instant in milliseconds
(a natural number; the steady clock is monotone, so `last_dispatch_time` never
exceeds `current_time`).  The C++ gate compares
`duration_cast<seconds>(current_time - last_dispatch_time).count()`, i.e. the
elapsed milliseconds divided by 1000 with truncation, against `T`.
-/

/-- Number of events to dispatch at once (`const int N = 10`). -/
def batchSizeN : Nat := 10

/-- Time interval in seconds (`const int T = 5`). -/
def batchIntervalT : Nat := 5

/-- Seconds slept when the batch gate stays closed
(`std::this_thread::sleep_for(std::chrono::seconds(1))`). -/
def tickSleepSeconds : Nat := 1

/-- Accumulation loop of the dispatcher (lines 79-88): ids are pushed in
batch order and each event's data is appended followed by `"\n"`. -/
def buildBatchPayload (pending_events : List Event) : List Int × String :=
  pending_events.foldl
    (fun acc event => (acc.1 ++ [event.id], acc.2 ++ event.event_data ++ "\n"))
    ([], "")

/-- Sink worker spawned by the dispatcher (lines 90-102): invoke `onEvent` on
the payload, then mark the batch `dispatched` on `true` and `pending` on
`false`. -/
def sinkWorker (onEvent : String → Bool) (db : List Event)
    (event_ids : List Int) (event_data : String) : List Event :=
  if onEvent event_data then updateEventStatus db event_ids "dispatched"
  else updateEventStatus db event_ids "pending"

/-- Result of one iteration of the dispatcher loop body: either the gate
stayed closed (sleep and re-check, store after GC, unchanged last-dispatch
instant) or a batch was fetched (possibly empty) and the last-dispatch
instant was reset. -/
inductive TickOutcome where
  | slept (sleepSeconds : Nat) (db : List Event) (lastDispatchMs : Nat)
  | fetched (batch : List Event) (db : List Event) (lastDispatchMs : Nat)
deriving Repr

/-- Last-dispatch instant carried out of a dispatcher iteration. -/
def TickOutcome.lastDispatch : TickOutcome → Nat
  | .slept _ _ l => l
  | .fetched _ _ l => l

/-- One iteration of the `EventQueueMonitor::dispatcher` loop body (lines
49-105): GC of `dispatched` rows, the size-or-time gate, then the
fetch-and-mark.  Thread reaping (lines 53-67) does not touch the store and is
omitted; the spawned sink worker is modelled separately by [sinkWorker]. -/
def dispatcherIteration (db : List Event) (lastDispatchMs nowMs : Nat) : TickOutcome :=
  let db1 := deleteEntriesWithStatus db "dispatched"
  if getPendingEventCount db1 < batchSizeN ∧ (nowMs - lastDispatchMs) / 1000 < batchIntervalT then
    .slept tickSleepSeconds db1 lastDispatchMs
  else
    let fetched := fetchAndMarkPendingEvents db1 batchSizeN
    .fetched fetched.1 fetched.2 nowMs

/-- Deleting `dispatched` rows leaves the `pending` rows untouched. -/
theorem filter_pending_deleteDispatched (db : List Event) :
    (deleteEntriesWithStatus db "dispatched").filter (fun e => e.status = "pending") =
      db.filter (fun e => e.status = "pending") := by
  induction db with
  | nil => rfl
  | cons e t ih =>
      simp only [deleteEntriesWithStatus] at ih ⊢
      rw [List.filter_cons]
      by_cases hd : e.status = "dispatched"
      · rw [if_neg (by simp [hd])]
        have hp : ¬ e.status = "pending" := by rw [hd]; decide
        rw [List.filter_cons, if_neg (by simp [hp]), ih]
      · rw [if_pos (by simp [hd]), List.filter_cons, List.filter_cons]
        by_cases hp : e.status = "pending"
        · rw [if_pos (by simp [hp]), if_pos (by simp [hp]), ih]
        · rw [if_neg (by simp [hp]), if_neg (by simp [hp]), ih]

/-- Deleting `dispatched` rows does not change the pending count. -/
theorem getPendingEventCount_deleteDispatched (db : List Event) :
    getPendingEventCount (deleteEntriesWithStatus db "dispatched") = getPendingEventCount db := by
  rw [getPendingEventCount, getPendingEventCount, filter_pending_deleteDispatched]

/-- The spec's wording of the worker payload (C2): the batch's event payloads
separated by `"\n"`. -/
def specSeparatedPayload (events : List Event) : String :=
  String.intercalate "\n" (events.map (fun e => e.event_data))

/-- C2 counterexample.  On a singleton batch the dispatcher's payload carries
a trailing `"\n"`, so it differs from the payloads merely separated by
`"\n"` as the claim states. -/
theorem c2_payload_counterexample :
    (buildBatchPayload [{ id := 1, event_data := "a", event_type := "json", status := "pending" }]).2 ≠
      specSeparatedPayload [{ id := 1, event_data := "a", event_type := "json", status := "pending" }] := by
  decide

/-- Folding string concatenation from an arbitrary seed factors through
`String.join`. -/
theorem strFoldl_append (l : List String) (s : String) :
    l.foldl (fun r t => r ++ t) s = s ++ String.join l := by
  induction l generalizing s with
  | nil => rw [List.foldl_nil, String.join, List.foldl_nil, String.append_empty]
  | cons a t ih =>
      rw [List.foldl_cons, ih]
      conv_rhs => rw [String.join, List.foldl_cons, String.empty_append]
      rw [ih, String.append_assoc]

/-- Unfolding lemma for `String.join` on a cons cell. -/
theorem strJoin_cons (a : String) (l : List String) :
    String.join (a :: l) = a ++ String.join l := by
  rw [String.join, List.foldl_cons, String.empty_append, strFoldl_append]

/-- Unfolding of the dispatcher's accumulation loop. -/
theorem buildBatchPayload_foldl (l : List Event) (ids : List Int) (s : String) :
    l.foldl (fun acc event => (acc.1 ++ [event.id], acc.2 ++ event.event_data ++ "\n")) (ids, s) =
      (ids ++ l.map (fun e => e.id),
       s ++ String.join (l.map (fun e => e.event_data ++ "\n"))) := by
  induction l generalizing ids s with
  | nil => simp [String.join]
  | cons e t ih =>
      rw [List.foldl_cons, ih, List.map_cons, List.map_cons, strJoin_cons]
      simp [List.append_assoc, String.append_assoc]

/-- C2 (amended).  For every batch returned by `fetchAndMarkPendingEvents`,
the worker's payload is the concatenation of the batch's event payloads in
order, each followed by `"\n"` (newline-terminated, not merely separated),
the ids passed on are exactly the batch's ids in order, and the worker calls
`updateEventStatus` with those ids and `"dispatched"` when the sink callback
returns `true` on the payload, and with those ids and `"pending"` when it
returns `false`. -/
theorem c2_dispatch_batch_amended (batch : List Event) (onEvent : String → Bool)
    (db : List Event) :
    (buildBatchPayload batch).1 = batch.map (fun e => e.id) ∧
    (buildBatchPayload batch).2 = String.join (batch.map (fun e => e.event_data ++ "\n")) ∧
    sinkWorker onEvent db (buildBatchPayload batch).1 (buildBatchPayload batch).2 =
      (if onEvent (String.join (batch.map (fun e => e.event_data ++ "\n"))) then
        updateEventStatus db (batch.map (fun e => e.id)) "dispatched"
      else
        updateEventStatus db (batch.map (fun e => e.id)) "pending") := by
  have h := buildBatchPayload_foldl batch [] ""
  have h1 : (buildBatchPayload batch).1 = batch.map (fun e => e.id) := by
    rw [buildBatchPayload, h]; simp
  have h2 : (buildBatchPayload batch).2 = String.join (batch.map (fun e => e.event_data ++ "\n")) := by
    rw [buildBatchPayload, h]; simp
  refine ⟨h1, h2, ?_⟩
  rw [sinkWorker, h1, h2]

/-- C3.  A dispatcher iteration attempts the batch fetch
(`fetchAndMarkPendingEvents` with limit `N = 10`) exactly when the pending
count reaches `N` or at least `T = 5` seconds have elapsed since the last
dispatch instant; otherwise it sleeps one second keeping the last-dispatch
instant. -/
theorem c3_batch_gate (db : List Event) (lastDispatchMs nowMs : Nat) :
    ((∃ batch db2, dispatcherIteration db lastDispatchMs nowMs = .fetched batch db2 nowMs) ↔
      (batchSizeN ≤ getPendingEventCount db ∨
        batchIntervalT * 1000 ≤ nowMs - lastDispatchMs)) ∧
    (¬ (batchSizeN ≤ getPendingEventCount db ∨
        batchIntervalT * 1000 ≤ nowMs - lastDispatchMs) →
      dispatcherIteration db lastDispatchMs nowMs =
        .slept tickSleepSeconds (deleteEntriesWithStatus db "dispatched") lastDispatchMs) := by
  have hcount := getPendingEventCount_deleteDispatched db
  rw [dispatcherIteration]
  simp only [hcount, batchSizeN, batchIntervalT, tickSleepSeconds]
  by_cases h : getPendingEventCount db < 10 ∧ (nowMs - lastDispatchMs) / 1000 < 5
  · rw [if_pos h]
    constructor
    · constructor
      · rintro ⟨batch, db2, heq⟩
        exact absurd heq (by simp)
      · intro hor
        exfalso
        rcases hor with hge | hge <;> omega
    · intro _
      rfl
  · rw [if_neg h]
    constructor
    · constructor
      · intro _
        by_cases hge : 10 ≤ getPendingEventCount db
        · exact Or.inl hge
        · refine Or.inr ?_
          omega
      · intro _
        exact ⟨_, _, rfl⟩
    · intro hnor
      exfalso
      exact h (by constructor <;> omega)

/-- Witness for C3 at a concrete input: empty store, no time elapsed, the
iteration sleeps. -/
theorem c3_batch_gate_witness :
    dispatcherIteration [] 0 0 = .slept tickSleepSeconds (deleteEntriesWithStatus [] "dispatched") 0 :=
  (c3_batch_gate [] 0 0).2 (by decide)

/-- C8.  Whenever the batch gate opens, the iteration ends as a fetch whose
carried last-dispatch instant is the current time — even when
`fetchAndMarkPendingEvents` returned an empty batch. -/
theorem c8_last_dispatch_reset (db : List Event) (lastDispatchMs nowMs : Nat)
    (h : batchSizeN ≤ getPendingEventCount db ∨
      batchIntervalT * 1000 ≤ nowMs - lastDispatchMs) :
    (dispatcherIteration db lastDispatchMs nowMs).lastDispatch = nowMs ∧
    (∃ batch db2, dispatcherIteration db lastDispatchMs nowMs = .fetched batch db2 nowMs) := by
  have hcount := getPendingEventCount_deleteDispatched db
  rw [dispatcherIteration]
  simp only [hcount, batchSizeN, batchIntervalT] at *
  have hcond : ¬ (getPendingEventCount db < 10 ∧ (nowMs - lastDispatchMs) / 1000 < 5) := by
    rcases h with hge | hge <;> intro ⟨h1, h2⟩ <;> omega
  rw [if_neg hcond]
  exact ⟨rfl, _, _, rfl⟩

/-- Witness for C8 at a concrete input where the fetched batch is empty: the
store is empty, five seconds have elapsed, and the last-dispatch instant is
still reset to the current time. -/
theorem c8_last_dispatch_reset_witness :
    (dispatcherIteration [] 0 5000).lastDispatch = 5000 ∧
    fetchAndMarkPendingEvents (deleteEntriesWithStatus [] "dispatched") batchSizeN = ([], []) :=
  ⟨(c8_last_dispatch_reset [] 0 5000 (Or.inr (by decide))).1, by decide⟩

/-!
Communicator (`src/agent/communicator/src/communicator.cpp`).  The relevant
state is the stored token string and its expiry epoch; the HTTP
authentication exchange and the JWT decoding are inputs of the step
function.
-/

/-- HTTP statuses distinguished by `Communicator::SendAuthenticationRequest`
(`boost::beast::http::status`). -/
inductive AuthStatus where
  | ok
  | unauthorized
deriving DecidableEq, Repr

/-- Token state owned by the communicator: `*m_token` and
`m_tokenExpTimeInSeconds`. -/
structure CommunicatorState where
  token : String
  tokenExpTimeInSeconds : Int
deriving DecidableEq, Repr

/-- Embeds `Communicator::SendAuthenticationRequest` (communicator.cpp lines
46-76).  `authResult` is the optional token returned by
`AuthenticateWithUuidAndKey`; `decodeExp` yields the epoch seconds of the
`exp` payload claim of a decoded JWT, `none` when the claim is absent. -/
def SendAuthenticationRequest (st : CommunicatorState) (authResult : Option String)
    (decodeExp : String → Option Int) : CommunicatorState × AuthStatus :=
  match authResult with
  | none => (st, .unauthorized)
  | some tok =>
    match decodeExp tok with
    | some expSecs => ({ token := tok, tokenExpTimeInSeconds := expSecs }, .ok)
    | none => ({ token := "", tokenExpTimeInSeconds := 1 }, .unauthorized)

/-- C4 counterexample.  When `AuthenticateWithUuidAndKey` fails to produce a
token, the function returns `unauthorized` but leaves the previously stored
token and expiry untouched: starting from token `"old"` and expiry `99`, the
token is not cleared and the expiry is not set to `1`, contradicting the
claim. -/
theorem c4_auth_failure_counterexample :
    ¬ ((SendAuthenticationRequest { token := "old", tokenExpTimeInSeconds := 99 } none
          (fun _ => none)).1.token = "" ∧
       (SendAuthenticationRequest { token := "old", tokenExpTimeInSeconds := 99 } none
          (fun _ => none)).1.tokenExpTimeInSeconds = 1) := by
  decide

/-- C4 (amended).  `SendAuthenticationRequest` clears the stored token and
sets the stored expiry to `1` only when a token was obtained but lacks an
`exp` claim, returning `Unauthorized`; when no token is obtained at all it
returns `Unauthorized` leaving token and expiry unchanged; on success with an
`exp` claim present it stores the token and the claim's epoch seconds and
returns `OK`. -/
theorem c4_send_authentication_amended (st : CommunicatorState) (tok : String)
    (decodeExp : String → Option Int) :
    SendAuthenticationRequest st none decodeExp = (st, .unauthorized) ∧
    (decodeExp tok = none →
      SendAuthenticationRequest st (some tok) decodeExp =
        ({ token := "", tokenExpTimeInSeconds := 1 }, .unauthorized)) ∧
    (∀ expSecs, decodeExp tok = some expSecs →
      SendAuthenticationRequest st (some tok) decodeExp =
        ({ token := tok, tokenExpTimeInSeconds := expSecs }, .ok)) := by
  refine ⟨rfl, ?_, ?_⟩
  · intro h
    rw [SendAuthenticationRequest, h]
  · intro expSecs h
    rw [SendAuthenticationRequest, h]

/-- Witness for C4 (amended) at concrete inputs: a token carrying an `exp`
claim of `7` is stored together with that expiry. -/
theorem c4_send_authentication_amended_witness :
    SendAuthenticationRequest { token := "x", tokenExpTimeInSeconds := 5 } (some "t")
        (fun _ => some 7) =
      ({ token := "t", tokenExpTimeInSeconds := 7 }, .ok) :=
  (c4_send_authentication_amended { token := "x", tokenExpTimeInSeconds := 5 } "t"
    (fun _ => some 7)).2.2 7 rfl

/-- Embeds `Communicator::GetTokenRemainingSecs` (communicator.cpp lines
78-83): `max(0, m_tokenExpTimeInSeconds - now_seconds)`. -/
def GetTokenRemainingSecs (tokenExpTimeInSeconds nowSecs : Int) : Int :=
  max 0 (tokenExpTimeInSeconds - nowSecs)

/-- Value of `TOKEN_PRE_EXPIRY_SECS` (communicator.cpp line 27). -/
def TOKEN_PRE_EXPIRY_SECS : Int := 2

/-- Value of `A_SECOND_IN_MILLIS` (communicator.cpp line 28). -/
def A_SECOND_IN_MILLIS : Int := 1000

/-- Embeds the `duration` lambda inside
`Communicator::WaitForTokenExpirationAndAuthenticate` (communicator.cpp lines
111-124): 1000 ms after a failed authentication, otherwise
`(GetTokenRemainingSecs() - TOKEN_PRE_EXPIRY_SECS) * A_SECOND_IN_MILLIS`. -/
def authTimerDurationMillis (authResult : AuthStatus) (remainingSecs : Int) : Int :=
  if authResult ≠ .ok then A_SECOND_IN_MILLIS
  else (remainingSecs - TOKEN_PRE_EXPIRY_SECS) * A_SECOND_IN_MILLIS

/-- C9.  On success the next timer duration is exactly
`(GetTokenRemainingSecs() - 2) * 1000` milliseconds with no lower clamp, so
any token whose remaining validity is at most 2 seconds yields a zero or
negative duration (immediate expiry); on authentication failure the duration
is exactly 1000 milliseconds. -/
theorem c9_timer_duration :
    (∀ remainingSecs : Int,
      authTimerDurationMillis .ok remainingSecs = (remainingSecs - 2) * 1000) ∧
    (∀ tokenExp nowSecs : Int, GetTokenRemainingSecs tokenExp nowSecs ≤ 2 →
      authTimerDurationMillis .ok (GetTokenRemainingSecs tokenExp nowSecs) ≤ 0) ∧
    (∀ remainingSecs : Int,
      authTimerDurationMillis .unauthorized remainingSecs = 1000) := by
  refine ⟨fun r => by rw [authTimerDurationMillis, if_neg (by simp)]; rfl, ?_, fun r => rfl⟩
  intro tokenExp nowSecs h
  rw [authTimerDurationMillis, if_neg (by simp), TOKEN_PRE_EXPIRY_SECS, A_SECOND_IN_MILLIS]
  nlinarith [h]

/-- Witness for C9 at a concrete input: a token with one second of validity
left gives a non-positive duration. -/
theorem c9_timer_duration_witness :
    authTimerDurationMillis .ok (GetTokenRemainingSecs 100 99) ≤ 0 :=
  c9_timer_duration.2.1 100 99 (by decide)

/-!
HTTP client (`src/agent/communicator/src/http_client.cpp`).  A request's
header block is modelled as an ordered association list; `boost::beast`'s
`fields::set` stores a value removing any other instance of the field, which
is embedded as filtering the name out and appending the new pair.
-/

/-- HTTP verbs used by the embedded requests. -/
inductive HttpVerb where
  | get
  | post
deriving DecidableEq, Repr

/-- Embeds `http_client::HttpRequestParams` with the fields read by
`CreateHttpRequest`. -/
structure HttpRequestParams where
  Method : HttpVerb
  Host : String
  Port : String
  Endpoint : String
  User_agent : String
  Token : String
  User_pass : String
  Body : String
  Use_Https : Bool
deriving DecidableEq, Repr

/-- Embeds `boost::beast::http::request<string_body>`: method, target,
version, the ordered header fields and the body. -/
structure HttpRequestMsg where
  method : HttpVerb
  target : String
  version : Nat
  fields : List (String × String)
  body : String
deriving DecidableEq, Repr

/-- Embeds `boost::beast::http::fields::set`: sets the value of a field,
removing any other instance of that field name. -/
def setField (fs : List (String × String)) (name value : String) : List (String × String) :=
  fs.filter (fun f => f.1 ≠ name) ++ [(name, value)]

/-- Value of a header field: the first (and, after `setField`, only)
instance of the name. -/
def getField (fs : List (String × String)) (name : String) : Option String :=
  (fs.find? (fun f => f.1 = name)).map (fun f => f.2)

/-- Embeds `HttpClient::CreateHttpRequest` (http_client.cpp lines 40-70):
host, user-agent and accept headers, then the `Bearer` authorization when the
token is non-empty, then the `Basic` authorization when the user-password is
non-empty, then the body headers when the body is non-empty. -/
def CreateHttpRequest (params : HttpRequestParams) : HttpRequestMsg :=
  let fs := setField (setField (setField [] "Host" params.Host)
    "User-Agent" params.User_agent) "Accept" "application/json"
  let fs := if params.Token ≠ "" then
      setField fs "Authorization" ("Bearer " ++ params.Token)
    else fs
  let fs := if params.User_pass ≠ "" then
      setField fs "Authorization" ("Basic " ++ params.User_pass)
    else fs
  let fs := if params.Body ≠ "" then
      setField (setField fs "Content-Type" "application/json") "Transfer-Encoding" "chunked"
    else fs
  { method := params.Method, target := params.Endpoint, version := 11,
    fields := fs,
    body := if params.Body ≠ "" then params.Body else "" }

/-- The Authorization header of an embedded request. -/
def authorizationOf (req : HttpRequestMsg) : Option String :=
  getField req.fields "Authorization"

/-- C6 counterexample.  With a non-empty token and a non-empty user-password
the `Basic` header is set after the `Bearer` one and `set` replaces, so the
request carries the basic authorization, not the bearer one the claim
promises. -/
theorem c6_bearer_counterexample :
    authorizationOf (CreateHttpRequest
        { Method := .post, Host := "h", Port := "p", Endpoint := "/e", User_agent := "ua",
          Token := "t", User_pass := "u", Body := "", Use_Https := false }) ≠
      some "Bearer t" := by
  decide

/-- Setting a field of a different name does not change a lookup. -/
theorem getField_setField_ne (fs : List (String × String)) (name name' value : String)
    (h : ¬ name = name') :
    getField (setField fs name' value) name = getField fs name := by
  have h' : ¬ name' = name := fun hc => h hc.symm
  induction fs with
  | nil =>
      rw [getField, getField, setField, List.filter_nil, List.nil_append,
        List.find?_cons_of_neg _ (by simp [h'])]
  | cons f t ih =>
      rw [getField, setField] at ih ⊢
      rw [getField]
      by_cases hf : f.1 = name'
      · have hfn : ¬ f.1 = name := by rw [hf]; exact h'
        rw [List.filter_cons_of_neg (by simp [hf]), List.find?_cons_of_neg _ (by simp [hfn])]
        exact ih
      · rw [List.filter_cons_of_pos (by simp [hf]), List.cons_append]
        by_cases hn : f.1 = name
        · rw [List.find?_cons_of_pos _ (by simp [hn]), List.find?_cons_of_pos _ (by simp [hn])]
        · rw [List.find?_cons_of_neg _ (by simp [hn]), List.find?_cons_of_neg _ (by simp [hn])]
          exact ih

/-- Looking up the field just set yields the new value. -/
theorem getField_setField_self (fs : List (String × String)) (name value : String) :
    getField (setField fs name value) name = some value := by
  induction fs with
  | nil =>
      rw [getField, setField, List.filter_nil, List.nil_append,
        List.find?_cons_of_pos _ (by simp)]
      rfl
  | cons f t ih =>
      rw [getField, setField] at ih ⊢
      by_cases hf : f.1 = name
      · rwa [List.filter_cons_of_neg (by simp [hf])]
      · rwa [List.filter_cons_of_pos (by simp [hf]), List.cons_append,
          List.find?_cons_of_neg _ (by simp [hf])]

/-- C6 (amended).  In `CreateHttpRequest` the basic authorization overrides
the bearer one: the Authorization header is `Basic <userPass>` whenever
`userPass` is non-empty, `Bearer <token>` when the token is non-empty and
`userPass` is empty, and absent when both are empty. -/
theorem c6_authorization_amended (params : HttpRequestParams) :
    authorizationOf (CreateHttpRequest params) =
      (if params.User_pass ≠ "" then some ("Basic " ++ params.User_pass)
       else if params.Token ≠ "" then some ("Bearer " ++ params.Token)
       else none) := by
  have hct : ¬ ("Authorization" : String) = "Content-Type" := by decide
  have hte : ¬ ("Authorization" : String) = "Transfer-Encoding" := by decide
  have hho : ¬ ("Authorization" : String) = "Host" := by decide
  have hua : ¬ ("Authorization" : String) = "User-Agent" := by decide
  have hac : ¬ ("Authorization" : String) = "Accept" := by decide
  simp only [authorizationOf, CreateHttpRequest]
  by_cases hb : params.Body ≠ ""
  · rw [if_pos hb, getField_setField_ne _ _ _ _ hte, getField_setField_ne _ _ _ _ hct]
    by_cases hu : params.User_pass ≠ ""
    · rw [if_pos hu, if_pos hu, getField_setField_self]
    · rw [if_neg hu, if_neg hu]
      by_cases ht : params.Token ≠ ""
      · rw [if_pos ht, if_pos ht, getField_setField_self]
      · rw [if_neg ht, if_neg ht, getField_setField_ne _ _ _ _ hac,
          getField_setField_ne _ _ _ _ hua, getField_setField_ne _ _ _ _ hho]
        rfl
  · rw [if_neg hb]
    by_cases hu : params.User_pass ≠ ""
    · rw [if_pos hu, if_pos hu, getField_setField_self]
    · rw [if_neg hu, if_neg hu]
      by_cases ht : params.Token ≠ ""
      · rw [if_pos ht, if_pos ht, getField_setField_self]
      · rw [if_neg ht, if_neg ht, getField_setField_ne _ _ _ _ hac,
          getField_setField_ne _ _ _ _ hua, getField_setField_ne _ _ _ _ hho]
        rfl

/-!
Synchronous request helper `HttpClient::PerformHttpRequest` (http_client.cpp
lines 170-202).  Each of the four steps inside the `try` block — resolve,
connect, write, read — either succeeds or throws an exception carrying the
`e.what()` text; the outcomes are the inputs of the embedding.
-/

/-- Embeds `boost::beast::http::response<dynamic_body>`: status code and
body text. -/
structure HttpResponseMsg where
  status : Nat
  body : String
deriving DecidableEq, Repr

/-- Outcomes of the steps performed inside the `try` block of
`HttpClient::PerformHttpRequest`. -/
structure RequestSteps where
  resolveStep : Except String Unit
  connectStep : Except String Unit
  writeStep : Except String Unit
  readStep : Except String HttpResponseMsg

/-- The synthetic response built in the `catch` block: status 500
(`internal_server_error`) and the error text streamed into the body. -/
def catchResponse (what : String) : HttpResponseMsg :=
  { status := 500, body := "Internal server error: " ++ what }

/-- Embeds `HttpClient::PerformHttpRequest`: runs resolve, connect, write and
read in order; the first exception short-circuits into the `catch` block,
otherwise the response read from the socket is returned. -/
def PerformHttpRequest (steps : RequestSteps) : HttpResponseMsg :=
  match steps.resolveStep with
  | .error e => catchResponse e
  | .ok _ =>
    match steps.connectStep with
    | .error e => catchResponse e
    | .ok _ =>
      match steps.writeStep with
      | .error e => catchResponse e
      | .ok _ =>
        match steps.readStep with
        | .error e => catchResponse e
        | .ok res => res

/-- C7.  `PerformHttpRequest` is total: every combination of step outcomes
produces a response; when some step threw, the response has status 500 and
its body carries the error text; when every step succeeded, the response is
exactly the one read. -/
theorem c7_perform_http_request_total (steps : RequestSteps) :
    (∃ what, PerformHttpRequest steps = catchResponse what ∧
      (PerformHttpRequest steps).status = 500 ∧
      (PerformHttpRequest steps).body = "Internal server error: " ++ what) ∨
    (∃ res, steps.readStep = .ok res ∧
      steps.resolveStep = .ok () ∧ steps.connectStep = .ok () ∧ steps.writeStep = .ok () ∧
      PerformHttpRequest steps = res) := by
  obtain ⟨r, c, w, rd⟩ := steps
  cases r with
  | error e => exact Or.inl ⟨e, rfl, rfl, rfl⟩
  | ok u =>
      cases u
      cases c with
      | error e => exact Or.inl ⟨e, rfl, rfl, rfl⟩
      | ok u =>
          cases u
          cases w with
          | error e => exact Or.inl ⟨e, rfl, rfl, rfl⟩
          | ok u =>
              cases u
              cases rd with
              | error e => exact Or.inl ⟨e, rfl, rfl, rfl⟩
              | ok res => exact Or.inr ⟨res, rfl, rfl, rfl, rfl, rfl⟩

/-!
Batching adapter (spec section 4.H).  The implementation of
`GetMessagesFromQueue` is not under src/ — only its unit tests
(`src/agent/tests/message_queue_utils_test.cpp`) are — so the adapter is
modelled from the spec.  The JSON array of the frame is produced by
`nlohmann::json::dump()`, whose string serialization is embedded below.
-/

/-- Message kinds of the in-process multi-type queue. -/
inductive MessageType where
  | STATEFUL
  | STATELESS
  | COMMAND
deriving DecidableEq, Repr

/-- In-memory message: kind, one or more opaque data strings, module name,
module type and free-form metadata (spec section 3). -/
structure Message where
  type : MessageType
  data : List String
  moduleName : String
  moduleType : String
  metadata : String
deriving DecidableEq, Repr

/-- Lower-case hexadecimal digit, as printed by `nlohmann`'s `\u%04x`
escapes. -/
def hexDigitChar (n : Nat) : Char :=
  if n < 10 then Char.ofNat (48 + n) else Char.ofNat (87 + n)

/-- Escaping of one character inside a JSON string literal, following
`nlohmann::json::dump` (quote, backslash, the short control escapes, and
`\u00xx` for the remaining control characters). -/
def escapeJsonChar (c : Char) : List Char :=
  if c = '"' then ['\\', '"']
  else if c = '\\' then ['\\', '\\']
  else if c = '\x08' then ['\\', 'b']
  else if c = '\x0c' then ['\\', 'f']
  else if c = '\n' then ['\\', 'n']
  else if c = '\r' then ['\\', 'r']
  else if c = '\t' then ['\\', 't']
  else if c.toNat < 32 then
    '\\' :: 'u' :: '0' :: '0' :: [hexDigitChar (c.toNat / 16), hexDigitChar (c.toNat % 16)]
  else [c]

/-- JSON serialization of a string value. -/
def dumpJsonString (s : String) : String :=
  "\"" ++ String.mk (s.data.flatMap escapeJsonChar) ++ "\""

/-- JSON serialization of an array of string values, as produced by
`nlohmann::json::dump()` on a `json::array()` of strings. -/
def dumpJsonStringArray (xs : List String) : String :=
  "[" ++ String.intercalate "," (xs.map dumpJsonString) ++ "]"

/-- Modelled from the spec: `GetMessagesFromQueue` (message_queue_utils) has
no implementation under src/, only its unit tests; spec section 4.H: the
body is the newline-delimited frame of the global metadata JSON (empty when
no agent-info provider is given), the metadata field of the first drained
message, and the JSON array of each drained message's data strings in drain
order. -/
def GetMessagesFromQueue (getMetadataInfo : Option String) (drained : List Message) : String :=
  (match getMetadataInfo with
   | none => ""
   | some g => g) ++ "\n" ++
  (match drained.head? with
   | none => ""
   | some m => m.metadata) ++ "\n" ++
  dumpJsonStringArray (drained.flatMap (fun m => m.data))

/-- C5.  The produced body is the frame global-metadata, newline, first
drained message's metadata, newline, JSON array of the drained data strings;
at the concrete inputs of the spec's seed test S6 the body is exactly the
quoted string. -/
theorem c5_batching_frame :
    (∀ (g : String) (m : Message) (ms : List Message),
      GetMessagesFromQueue (some g) (m :: ms) =
        g ++ "\n" ++ m.metadata ++ "\n" ++
          dumpJsonStringArray ((m :: ms).flatMap (fun msg => msg.data))) ∧
    GetMessagesFromQueue (some "\x7b\"agent\":\"test\"\x7d")
        [{ type := .STATELESS,
           data := ["\x7b\"event\":\x7b\"original\":\"Testing message!\"\x7d\x7d"],
           moduleName := "", moduleType := "",
           metadata := "\x7b\"module\":\"logcollector\",\"type\":\"file\"\x7d" }] =
      "\x7b\"agent\":\"test\"\x7d\n\x7b\"module\":\"logcollector\",\"type\":\"file\"\x7d\n[\"\x7b\\\"event\\\":\x7b\\\"original\\\":\\\"Testing message!\\\"\x7d\x7d\"]" := by
  constructor
  · intro g m ms
    rfl
  · decide

/-!
Configuration parser (`src/agent/configuration_parser/src/configuration_parser.cpp`).
`ParseTimeUnit` works on the byte/character sequence of a `std::string`,
embedded as a `List Char`; `ends_with` and `substr` become a suffix test and
a prefix take.  `std::stoul` returns `unsigned long` (64-bit on the target
platform) and throws `out_of_range` above `ULONG_MAX`; the product with the
`unsigned int` multiplier wraps modulo `2 ^ 64` and its conversion to the
signed 64-bit `std::time_t` is value-preserving below `2 ^ 63` and wraps
otherwise.
-/

namespace configuration

/-- Millisecond constants of the anonymous namespace (configuration_parser.cpp
lines 10-13). -/
def A_SECOND_IN_MILLIS : Nat := 1000

/-- Sixty seconds in milliseconds. -/
def A_MINUTE_IN_MILLIS : Nat := 60 * A_SECOND_IN_MILLIS

/-- Sixty minutes in milliseconds. -/
def A_HOUR_IN_MILLIS : Nat := 60 * A_MINUTE_IN_MILLIS

/-- Twenty-four hours in milliseconds. -/
def A_DAY_IN_MILLIS : Nat := 24 * A_HOUR_IN_MILLIS

/-- Exceptions thrown by `ParseTimeUnit`: `std::invalid_argument` from the
explicit check (and from `std::stoul` on an empty digit string), and
`std::out_of_range` from `std::stoul` on a value above `ULONG_MAX`. -/
inductive TimeParseError where
  | invalidArgument
  | outOfRange
deriving DecidableEq, Repr

/-- Largest `unsigned long` value on the target platform. -/
def ULONG_MAX : Nat := 2 ^ 64 - 1

/-- Numeric value of a decimal digit string. -/
def digitsToNat (cs : List Char) : Nat :=
  cs.foldl (fun n c => 10 * n + (c.toNat - 48)) 0

/-- Embeds `std::stoul` applied to a string of decimal digits: an empty
string has no conversion (`std::invalid_argument`); a value above
`ULONG_MAX` throws `std::out_of_range`. -/
def stoulDigits (cs : List Char) : Except TimeParseError Nat :=
  if cs.isEmpty then .error .invalidArgument
  else if ULONG_MAX < digitsToNat cs then .error .outOfRange
  else .ok (digitsToNat cs)

/-- Conversion of the wrapped `unsigned long` product to the signed 64-bit
`std::time_t`. -/
def toTimeT (n : Nat) : Int :=
  if n % 2 ^ 64 < 2 ^ 63 then ((n % 2 ^ 64 : Nat) : Int)
  else ((n % 2 ^ 64 : Nat) : Int) - 2 ^ 64

/-- Tests whether the second list starts with the first
(`std::string::starts_with` on character sequences). -/
def charsStartWith : List Char → List Char → Bool
  | [], _ => true
  | _ :: _, [] => false
  | p :: ps, c :: cs => p == c && charsStartWith ps cs

/-- Embeds `std::string::ends_with`: the reversed suffix begins the reversed
string. -/
def charsEndWith (l suffix : List Char) : Bool :=
  charsStartWith suffix.reverse l.reverse

/-- Embeds `option.substr(0, option.length() - k)`. -/
def dropRightChars (l : List Char) (k : Nat) : List Char :=
  l.take (l.length - k)

/-- The suffix-stripping chain of `ParseTimeUnit` (configuration_parser.cpp
lines 95-124): the remaining digit text and the multiplier, checking `ms`
before the single-letter suffixes and defaulting to seconds. -/
def stripTimeSuffix (option : List Char) : List Char × Nat :=
  if charsEndWith option ['m', 's'] then (dropRightChars option 2, 1)
  else if charsEndWith option ['s'] then (dropRightChars option 1, A_SECOND_IN_MILLIS)
  else if charsEndWith option ['m'] then (dropRightChars option 1, A_MINUTE_IN_MILLIS)
  else if charsEndWith option ['h'] then (dropRightChars option 1, A_HOUR_IN_MILLIS)
  else if charsEndWith option ['d'] then (dropRightChars option 1, A_DAY_IN_MILLIS)
  else (option, A_SECOND_IN_MILLIS)

/-- Embeds `ConfigurationParser::ParseTimeUnit` (configuration_parser.cpp
lines 90-132): strip the unit suffix, reject non-digit remainders with
`std::invalid_argument`, then `std::stoul` and the multiplication, wrapped
into `std::time_t`. -/
def ParseTimeUnit (option : List Char) : Except TimeParseError Int :=
  match stripTimeSuffix option with
  | (number, multiplier) =>
    if ¬ number.all Char.isDigit then .error .invalidArgument
    else
      match stoulDigits number with
      | .error e => .error e
      | .ok n => .ok (toTimeT (n * multiplier))

/-- A list starts with itself followed by anything. -/
theorem charsStartWith_append (p t : List Char) : charsStartWith p (p ++ t) = true := by
  induction p with
  | nil => rfl
  | cons a ps ih => simp [charsStartWith, ih]

/-- Appending a suffix makes `charsEndWith` succeed on it. -/
theorem charsEndWith_append (l s : List Char) : charsEndWith (l ++ s) s = true := by
  rw [charsEndWith, List.reverse_append]
  exact charsStartWith_append s.reverse l.reverse

/-- A reversed all-digit non-empty list never starts with a non-digit
character. -/
theorem charsStartWith_nondigit_rev (x : Char) (p ds : List Char)
    (hne : ds ≠ []) (hd : ds.all Char.isDigit = true) (hx : x.isDigit = false) :
    charsStartWith (x :: p) ds.reverse = false := by
  cases hrev : ds.reverse with
  | nil => exact absurd (List.reverse_eq_nil_iff.mp hrev) hne
  | cons c cs =>
      have hc : c ∈ ds := by
        rw [← List.mem_reverse, hrev]
        exact List.mem_cons_self _ _
      have hcd : c.isDigit = true := by
        rw [List.all_eq_true] at hd
        exact hd c hc
      have hxc : (x == c) = false := by
        have hne' : x ≠ c := by
          intro h
          rw [h, hcd] at hx
          exact Bool.noConfusion hx
        simp [hne']
      simp [charsStartWith, hxc]

/-- Taking everything but an appended suffix returns the original list. -/
theorem dropRightChars_append (ds s : List Char) :
    dropRightChars (ds ++ s) s.length = ds := by
  rw [dropRightChars, List.length_append, Nat.add_sub_cancel, List.take_left]

/-- Two-character instance of [dropRightChars_append]. -/
theorem dropRightChars_append_two (ds : List Char) (a b : Char) :
    dropRightChars (ds ++ [a, b]) 2 = ds := by
  simpa using dropRightChars_append ds [a, b]

/-- One-character instance of [dropRightChars_append]. -/
theorem dropRightChars_append_one (ds : List Char) (a : Char) :
    dropRightChars (ds ++ [a]) 1 = ds := by
  simpa using dropRightChars_append ds [a]

/-- Core of the confirmed part of C10: when the suffix stripping yields an
all-digit non-empty remainder within `unsigned long` range and the final
product stays below `2 ^ 63`, `ParseTimeUnit` returns the product. -/
theorem parse_digits_with_strip (option ds : List Char) (mult : Nat)
    (hstrip : stripTimeSuffix option = (ds, mult))
    (hne : ds ≠ []) (hd : ds.all Char.isDigit = true)
    (hle : digitsToNat ds ≤ ULONG_MAX)
    (h63 : digitsToNat ds * mult < 2 ^ 63) :
    ParseTimeUnit option = .ok ((digitsToNat ds * mult : Nat) : Int) := by
  have hempty : ds.isEmpty = false := by
    cases ds with
    | nil => exact absurd rfl hne
    | cons a t => rfl
  have hstoul : stoulDigits ds = .ok (digitsToNat ds) := by
    rw [stoulDigits, if_neg (by simp [hempty]), if_neg (Nat.not_lt.mpr hle)]
  have hlt64 : digitsToNat ds * mult < 2 ^ 64 := lt_trans h63 (by norm_num)
  have hmod : digitsToNat ds * mult % 2 ^ 64 = digitsToNat ds * mult :=
    Nat.mod_eq_of_lt hlt64
  simp only [ParseTimeUnit, hstrip]
  rw [if_neg (by simp [hd]), hstoul]
  show Except.ok (toTimeT (digitsToNat ds * mult)) = _
  rw [toTimeT, hmod, if_pos h63]

/-- Suffix stripping on an all-digit string followed by `ms`. -/
theorem stripTimeSuffix_ms (ds : List Char) :
    stripTimeSuffix (ds ++ ['m', 's']) = (ds, 1) := by
  rw [stripTimeSuffix, if_pos (charsEndWith_append ds ['m', 's']), dropRightChars_append_two]

/-- Suffix stripping on an all-digit string followed by `s`: the earlier
`ms` test fails because the last remaining character is a digit. -/
theorem stripTimeSuffix_s (ds : List Char) (hne : ds ≠ [])
    (hd : ds.all Char.isDigit = true) :
    stripTimeSuffix (ds ++ ['s']) = (ds, A_SECOND_IN_MILLIS) := by
  have h1 : charsEndWith (ds ++ ['s']) ['m', 's'] = false := by
    rw [charsEndWith, List.reverse_append]
    show charsStartWith ['s', 'm'] ('s' :: ds.reverse) = false
    have h2 := charsStartWith_nondigit_rev 'm' [] ds hne hd (by decide)
    simp [charsStartWith, h2]
  rw [stripTimeSuffix, if_neg (by simp [h1]), if_pos (charsEndWith_append ds ['s']),
    dropRightChars_append_one]

/-- Suffix stripping on an all-digit string followed by `m`. -/
theorem stripTimeSuffix_m (ds : List Char) :
    stripTimeSuffix (ds ++ ['m']) = (ds, A_MINUTE_IN_MILLIS) := by
  have h1 : charsEndWith (ds ++ ['m']) ['m', 's'] = false := by
    rw [charsEndWith, List.reverse_append]; rfl
  have h2 : charsEndWith (ds ++ ['m']) ['s'] = false := by
    rw [charsEndWith, List.reverse_append]; rfl
  rw [stripTimeSuffix, if_neg (by simp [h1]), if_neg (by simp [h2]),
    if_pos (charsEndWith_append ds ['m']), dropRightChars_append_one]

/-- Suffix stripping on an all-digit string followed by `h`. -/
theorem stripTimeSuffix_h (ds : List Char) :
    stripTimeSuffix (ds ++ ['h']) = (ds, A_HOUR_IN_MILLIS) := by
  have h1 : charsEndWith (ds ++ ['h']) ['m', 's'] = false := by
    rw [charsEndWith, List.reverse_append]; rfl
  have h2 : charsEndWith (ds ++ ['h']) ['s'] = false := by
    rw [charsEndWith, List.reverse_append]; rfl
  have h3 : charsEndWith (ds ++ ['h']) ['m'] = false := by
    rw [charsEndWith, List.reverse_append]; rfl
  rw [stripTimeSuffix, if_neg (by simp [h1]), if_neg (by simp [h2]), if_neg (by simp [h3]),
    if_pos (charsEndWith_append ds ['h']), dropRightChars_append_one]

/-- Suffix stripping on an all-digit string followed by `d`. -/
theorem stripTimeSuffix_d (ds : List Char) :
    stripTimeSuffix (ds ++ ['d']) = (ds, A_DAY_IN_MILLIS) := by
  have h1 : charsEndWith (ds ++ ['d']) ['m', 's'] = false := by
    rw [charsEndWith, List.reverse_append]; rfl
  have h2 : charsEndWith (ds ++ ['d']) ['s'] = false := by
    rw [charsEndWith, List.reverse_append]; rfl
  have h3 : charsEndWith (ds ++ ['d']) ['m'] = false := by
    rw [charsEndWith, List.reverse_append]; rfl
  have h4 : charsEndWith (ds ++ ['d']) ['h'] = false := by
    rw [charsEndWith, List.reverse_append]; rfl
  rw [stripTimeSuffix, if_neg (by simp [h1]), if_neg (by simp [h2]), if_neg (by simp [h3]),
    if_neg (by simp [h4]), if_pos (charsEndWith_append ds ['d']), dropRightChars_append_one]

/-- Suffix stripping on a bare all-digit string: no unit test succeeds, the
default is seconds. -/
theorem stripTimeSuffix_digits (ds : List Char) (hne : ds ≠ [])
    (hd : ds.all Char.isDigit = true) :
    stripTimeSuffix ds = (ds, A_SECOND_IN_MILLIS) := by
  have h1 : charsEndWith ds ['m', 's'] = false := by
    rw [charsEndWith]
    exact charsStartWith_nondigit_rev 's' ['m'] ds hne hd (by decide)
  have h2 : charsEndWith ds ['s'] = false := by
    rw [charsEndWith]
    exact charsStartWith_nondigit_rev 's' [] ds hne hd (by decide)
  have h3 : charsEndWith ds ['m'] = false := by
    rw [charsEndWith]
    exact charsStartWith_nondigit_rev 'm' [] ds hne hd (by decide)
  have h4 : charsEndWith ds ['h'] = false := by
    rw [charsEndWith]
    exact charsStartWith_nondigit_rev 'h' [] ds hne hd (by decide)
  have h5 : charsEndWith ds ['d'] = false := by
    rw [charsEndWith]
    exact charsStartWith_nondigit_rev 'd' [] ds hne hd (by decide)
  rw [stripTimeSuffix, if_neg (by simp [h1]), if_neg (by simp [h2]), if_neg (by simp [h3]),
    if_neg (by simp [h4]), if_neg (by simp [h5])]

/-- C10 counterexample.  The 20-digit input `18446744073709551616ms`
(`2 ^ 64`, one past `ULONG_MAX`) makes `std::stoul` throw
`std::out_of_range`, while the claim maps every digit string suffixed `ms`
to that number of milliseconds. -/
theorem c10_parse_time_counterexample :
    ParseTimeUnit ("18446744073709551616ms".data) = .error .outOfRange ∧
    ParseTimeUnit ("18446744073709551616ms".data) ≠
      .ok ((18446744073709551616 : Nat) : Int) := by
  have h : ParseTimeUnit ("18446744073709551616ms".data) = .error .outOfRange := by rfl
  refine ⟨h, ?_⟩
  rw [h]
  intro hcontra
  exact Except.noConfusion hcontra

/-- C10 (amended).  For every non-empty decimal digit string whose value fits
in `unsigned long` (is at most `ULONG_MAX = 2 ^ 64 - 1`), and whose product
with the unit multiplier stays below `2 ^ 63`, `ParseTimeUnit` maps the
`ms`-suffixed string to that number of milliseconds, the `s`-suffixed string
to the number times 1000, `m` to times 60000, `h` to times 3600000, `d` to
times 86400000, and the bare digit string to the number times 1000 (seconds
by default); digit strings above `ULONG_MAX` throw `std::out_of_range`
instead, and every input whose remaining characters after suffix stripping
are not all digits throws `std::invalid_argument`. -/
theorem c10_parse_time_amended :
    (∀ ds : List Char, ds ≠ [] → ds.all Char.isDigit = true →
      digitsToNat ds ≤ ULONG_MAX →
      ((digitsToNat ds * 1 < 2 ^ 63 →
        ParseTimeUnit (ds ++ ['m', 's']) = .ok ((digitsToNat ds * 1 : Nat) : Int)) ∧
      (digitsToNat ds * 1000 < 2 ^ 63 →
        ParseTimeUnit (ds ++ ['s']) = .ok ((digitsToNat ds * 1000 : Nat) : Int)) ∧
      (digitsToNat ds * 60000 < 2 ^ 63 →
        ParseTimeUnit (ds ++ ['m']) = .ok ((digitsToNat ds * 60000 : Nat) : Int)) ∧
      (digitsToNat ds * 3600000 < 2 ^ 63 →
        ParseTimeUnit (ds ++ ['h']) = .ok ((digitsToNat ds * 3600000 : Nat) : Int)) ∧
      (digitsToNat ds * 86400000 < 2 ^ 63 →
        ParseTimeUnit (ds ++ ['d']) = .ok ((digitsToNat ds * 86400000 : Nat) : Int)) ∧
      (digitsToNat ds * 1000 < 2 ^ 63 →
        ParseTimeUnit ds = .ok ((digitsToNat ds * 1000 : Nat) : Int)))) ∧
    (∀ l : List Char, (stripTimeSuffix l).1.all Char.isDigit = false →
      ParseTimeUnit l = .error .invalidArgument) := by
  constructor
  · intro ds hne hd hle
    refine ⟨?_, ?_, ?_, ?_, ?_, ?_⟩ <;> intro h63
    · exact parse_digits_with_strip _ ds 1 (stripTimeSuffix_ms ds) hne hd hle h63
    · exact parse_digits_with_strip _ ds 1000 (stripTimeSuffix_s ds hne hd) hne hd hle h63
    · exact parse_digits_with_strip _ ds 60000 (stripTimeSuffix_m ds) hne hd hle h63
    · exact parse_digits_with_strip _ ds 3600000 (stripTimeSuffix_h ds) hne hd hle h63
    · exact parse_digits_with_strip _ ds 86400000 (stripTimeSuffix_d ds) hne hd hle h63
    · exact parse_digits_with_strip _ ds 1000 (stripTimeSuffix_digits ds hne hd) hne hd hle h63
  · intro l hfail
    rcases hs : stripTimeSuffix l with ⟨number, mult⟩
    rw [hs] at hfail
    simp only [ParseTimeUnit, hs]
    rw [if_pos (by simp [hfail])]

/-- Witness for C10 (amended) at a concrete input: `5s` parses to 5000
milliseconds. -/
theorem c10_parse_time_amended_witness :
    ParseTimeUnit (['5'] ++ ['s']) = .ok ((digitsToNat ['5'] * 1000 : Nat) : Int) :=
  (c10_parse_time_amended.1 ['5'] (by decide) (by decide) (by decide)).2.1 (by decide)

end configuration

end Wazuh
